import Mathlib

/-!
Shallow embedding of `src/syscall_info.rs` from the `lurk` repository
(a pretty-printer / serializer for intercepted system calls).

Machine integers are modelled as `Nat` / `Int` with explicit reduction
modulo powers of two where the Rust code relies on casts.  Rendering to
an output sink is modelled by the `String` the code writes.  Structured
(serde) serialization is modelled by an explicit `Json` value tree and,
for the top-level record, an ordered association list of fields.
-/

namespace Lurk

/-- Lowercase hex digit as a character code: 0-9 then a-f.
Used by the byte-escaping routine. -/
def hexCodeLower (m : Nat) : Nat :=
  if m < 10 then 48 + m else 87 + m

/-- Uppercase hexadecimal digit character (0-9, A-F), as produced by
the Rust `X` format specifier. -/
def hexDigitUpper (m : Nat) : Char :=
  if m < 10 then Char.ofNat (48 + m) else Char.ofNat (55 + m)

/-- Lowercase hexadecimal digit character (0-9, a-f), as produced by
the Rust `x` format specifier. -/
def hexDigitLower (m : Nat) : Char :=
  if m < 10 then Char.ofNat (48 + m) else Char.ofNat (87 + m)

/-- Hexadecimal digit list of a natural number (most significant first,
empty for 0), parametrised by the digit-character function. -/
def hexDigits (dig : Nat → Char) (n : Nat) : List Char :=
  if h : n = 0 then []
  else hexDigits dig (n / 16) ++ [dig (n % 16)]
  decreasing_by exact Nat.div_lt_self (Nat.pos_of_ne_zero h) (by norm_num)

/-- Rendering of `n` in uppercase hexadecimal with the `0x` marker, as
the Rust `{:#X}` format produces: literal lowercase `0x` followed by
uppercase digits (`format!("{:#X}", 27) = "0x1B"`). -/
def hexStringUpper (n : Nat) : String :=
  "0x" ++ (if n = 0 then "0" else String.mk (hexDigits hexDigitUpper n))

/-- Rendering of `n` in lowercase hexadecimal with the `0x` marker, as
the Rust `{:#x}` format produces. -/
def hexStringLower (n : Nat) : String :=
  "0x" ++ (if n = 0 then "0" else String.mk (hexDigits hexDigitLower n))

/-- Modelled from the spec: the byte-escaping routine `escape_to_string`
lives in `crate::arch`, which is not part of the provided sources.  The
spec says bytes are "escaped into a display-safe, quoted string form
(control and non-printable bytes escaped; embedded quotes escaped)".
We model it per byte: printable ASCII passes through, a double quote
becomes backslash-quote, a backslash becomes backslash-backslash, and
every other byte becomes a backslash-x hex escape.  Output is a list of
character codes. -/
def escapeByteCode (b : Nat) : List Nat :=
  if b = 34 then [92, 34]
  else if b = 92 then [92, 92]
  else if 32 ≤ b ∧ b ≤ 126 then [b]
  else [92, 120, hexCodeLower (b / 16 % 16), hexCodeLower (b % 16)]

/-- Modelled from the spec: `escape_to_string` applied to a whole byte
buffer — concatenation of the per-byte escapes, read as a string. -/
def escape_to_string (v : List Nat) : String :=
  String.mk ((v.flatMap escapeByteCode).map Char.ofNat)

/-- JSON string-content escaping of one character, following
the serde_json serializer (used because the Rust code renders byte-buffer
arguments through a `serde_json::Value`): quote and backslash get a
backslash escape, control characters get the two-character short escapes
or a `u00` hex escape, everything else passes through. -/
def jsonEscapeChar (c : Char) : List Char :=
  if c.toNat = 34 then [Char.ofNat 92, Char.ofNat 34]
  else if c.toNat = 92 then [Char.ofNat 92, Char.ofNat 92]
  else if c.toNat < 32 then
    if c.toNat = 8 then [Char.ofNat 92, Char.ofNat 98]
    else if c.toNat = 9 then [Char.ofNat 92, Char.ofNat 116]
    else if c.toNat = 10 then [Char.ofNat 92, Char.ofNat 110]
    else if c.toNat = 12 then [Char.ofNat 92, Char.ofNat 102]
    else if c.toNat = 13 then [Char.ofNat 92, Char.ofNat 114]
    else [Char.ofNat 92, Char.ofNat 117, Char.ofNat 48, Char.ofNat 48,
          hexDigitLower (c.toNat / 16), hexDigitLower (c.toNat % 16)]
  else [c]

/-- JSON encoding of a string value: quoted, content escaped, exactly as
`Display` on a `serde_json::Value::String` prints it. -/
def jsonEncodeString (s : String) : String :=
  String.mk (Char.ofNat 34 :: s.data.flatMap jsonEscapeChar ++ [Char.ofNat 34])

/-- Structured (serde) values produced by the serializers in this file.
Floating-point numbers are modelled as exact rationals (the only one
produced is the duration in seconds). -/
inductive Json where
  | str (s : String)
  | int (n : Int)
  | rat (q : ℚ)
  | arr (xs : List Json)

/-- Syscall identity: a stable numeric id with a canonical name
(external `syscalls::Sysno`; only the identity data the rendering code
uses is modelled). -/
structure Sysno where
  id : Nat
  name : String
deriving DecidableEq, Repr

/-- The process-termination syscall `exit`. -/
def Sysno.exit : Sysno := ⟨60, "exit"⟩

/-- The process-termination syscall `exit_group`. -/
def Sysno.exit_group : Sysno := ⟨231, "exit_group"⟩

/-- `std::time::Duration`: whole seconds plus a nanosecond part. -/
structure Duration where
  secs : Nat
  nanos : Nat
deriving DecidableEq, Repr

/-- `Duration::as_nanos`: the total nanosecond count. -/
def Duration.as_nanos (d : Duration) : Nat :=
  d.secs * 1000000000 + d.nanos

/-- `Duration::as_secs_f64`: the duration as a count of seconds,
modelled as an exact rational (f64 rounding elided; no claim here
depends on the rounded value). -/
def Duration.as_secs_f64 (d : Duration) : ℚ :=
  (d.secs : ℚ) + (d.nanos : ℚ) / 1000000000

/-- `RetCode` from syscall_info.rs: classification of a raw syscall
return value.  `Ok`/`Err` carry an i32 (modelled as `Int`), `Address`
carries a usize (modelled as `Nat`). -/
inductive RetCode where
  | Ok (v : Int)
  | Err (v : Int)
  | Address (v : Nat)
deriving DecidableEq, Repr

/-- Reinterpretation of a u64 register value as a signed 64-bit integer
(the `ret_code as isize` cast on a 64-bit target). -/
def toSigned64 (v : Nat) : Int :=
  if v % 2 ^ 64 < 2 ^ 63 then ((v % 2 ^ 64 : Nat) : Int)
  else ((v % 2 ^ 64 : Nat) : Int) - 2 ^ 64

/-- Truncating cast of a signed 64-bit value to i32 (the
`ret_i32 as i32` cast): keep the low 32 bits, reinterpret signed. -/
def asI32 (x : Int) : Int :=
  if x % 2 ^ 32 < 2 ^ 31 then x % 2 ^ 32 else x % 2 ^ 32 - 2 ^ 32

/-- `isize::abs` under twos-complement wrapping, the semantics Rust
guarantees when overflow checks are disabled (the release-profile
default): the absolute value, except that the minimum value maps to
itself. -/
def wrappingAbs64 (x : Int) : Int :=
  if x = -(2 ^ 63) then x else (x.natAbs : Int)

/-- `RetCode::from_raw` (syscall_info.rs lines 138-148) under
release-profile arithmetic: reinterpret the raw u64 as signed; if the
(wrapping) absolute value exceeds 0x8000 classify as Address carrying
the raw value as usize; otherwise Err for negative, Ok for
non-negative, carrying the value truncated to i32. -/
def RetCode.from_raw (ret_code : Nat) : RetCode :=
  if wrappingAbs64 (toSigned64 ret_code) > 0x8000 then
    RetCode.Address (ret_code % 2 ^ 64)
  else if toSigned64 ret_code < 0 then
    RetCode.Err (asI32 (toSigned64 ret_code))
  else
    RetCode.Ok (asI32 (toSigned64 ret_code))

/-- `RetCode::from_raw` under checked arithmetic (the debug-profile
default, where `isize::abs` panics on the minimum value): `none` models
the panic, otherwise the same classification. -/
def RetCode.from_raw_checked (ret_code : Nat) : Option RetCode :=
  if toSigned64 ret_code = -(2 ^ 63) then none
  else if (toSigned64 ret_code).natAbs > 0x8000 then
    some (RetCode.Address (ret_code % 2 ^ 64))
  else if toSigned64 ret_code < 0 then
    some (RetCode.Err (asI32 (toSigned64 ret_code)))
  else
    some (RetCode.Ok (asI32 (toSigned64 ret_code)))

/-- `impl Display for RetCode` (lines 151-158): Ok and Err print the
signed decimal value, Address prints with the `{:#X}` format. -/
def RetCode.display : RetCode → String
  | RetCode.Ok v => toString v
  | RetCode.Err v => toString v
  | RetCode.Address v => hexStringUpper v

/-- Derived `Serialize` for `RetCode` with its serde renames, as
flattened into the record map: a single key-value pair whose key names
the variant (`success` / `error` / `result`) and whose value is the
carried number. -/
def RetCode.serialize : RetCode → List (String × Json)
  | RetCode.Ok v => [("success", Json.int v)]
  | RetCode.Err v => [("error", Json.int v)]
  | RetCode.Address v => [("result", Json.int v)]

/-- `SyscallArg` (lines 160-165): one decoded syscall argument. -/
inductive SyscallArg where
  | Int (v : Int)
  | Bytes (v : List Nat)
  | Addr (v : Nat)
deriving DecidableEq, Repr

/-- The byte-buffer preparation step inside `SyscallArg::write`
(lines 171-178): the buffer is copied; when a limit is set and the
buffer is longer, it is truncated to the limit and the three bytes
`...` (0x2E) are appended. -/
def truncate_with_dots (string_limit : Option Nat) (v : List Nat) : List Nat :=
  match string_limit with
  | none => v
  | some width => if v.length > width then v.take width ++ [46, 46, 46] else v

/-- `SyscallArg::write` (lines 167-185), modelled as the string written
to the sink: integers print in decimal, byte buffers are (possibly)
truncated then escaped and written as a JSON-quoted string (the code
prints a `serde_json::Value`), addresses print with `{:#X}`. -/
def SyscallArg.write (a : SyscallArg) (string_limit : Option Nat) : String :=
  match a with
  | SyscallArg.Int v => toString v
  | SyscallArg.Bytes v =>
      jsonEncodeString (escape_to_string (truncate_with_dots string_limit v))
  | SyscallArg.Addr v => hexStringUpper v

/-- One element of `impl Serialize for SyscallArgs` (lines 112-125):
integer arguments become numbers, byte buffers become the escaped
string (no truncation on this path), addresses become a `{:#x}`
lowercase hex string. -/
def SyscallArg.serialize : SyscallArg → Json
  | SyscallArg.Int v => Json.int v
  | SyscallArg.Bytes v => Json.str (escape_to_string v)
  | SyscallArg.Addr v => Json.str (hexStringLower v)

/-- `impl Serialize for SyscallArgs`: the argument list serializes as a
sequence of the per-argument values, in order. -/
def SyscallArgs.serialize (args : List SyscallArg) : List Json :=
  args.map SyscallArg.serialize

/-- `SyscallInfo` (lines 16-24): one completed syscall observation.
The pid is an i32 (`nix::unistd::Pid`), the argument list is the
wrapped vector of `SyscallArgs`. -/
structure SyscallInfo where
  typ : String
  pid : Int
  syscall : Sysno
  args : List SyscallArg
  result : RetCode
  duration : Duration

/-- Right-alignment to width 3 with spaces, the Rust `{:>3}` format. -/
def padStart3 (s : String) : String :=
  String.mk (List.replicate (3 - s.length) (Char.ofNat 32)) ++ s

/-- `SyscallInfo::write_syscall` (lines 44-92), the `use_colors = false`
path, modelled as the line written to the sink (color styling only
wraps the pid, name and result substrings in terminal codes and is
orthogonal to every property stated below).  Note the duration is
written with `write!(_, " <{:.6}ns>", duration.as_nanos())`: Rust
ignores the precision for integral values, so the nanosecond count
prints as a plain decimal integer. -/
def SyscallInfo.write_syscall (i : SyscallInfo) (string_limit : Option Nat)
    (show_syscall_num : Bool) (show_duration : Bool) : String :=
  "[" ++ toString i.pid ++ "] "
  ++ (if show_syscall_num then padStart3 (toString i.syscall.id) ++ " " else "")
  ++ i.syscall.name ++ "("
  ++ String.intercalate ", " (i.args.map (fun a => a.write string_limit))
  ++ ") = "
  ++ (if i.syscall = Sysno.exit ∨ i.syscall = Sysno.exit_group then "?"
      else RetCode.display i.result
        ++ (if show_duration then
              " <" ++ toString i.duration.as_nanos ++ "ns>" else ""))
  ++ "\n"

/-- `impl Serialize for SyscallInfo` (lines 95-107): an ordered map of
seven fields; the single field of the return code is flattened into the map
between `args` and `duration`.  The `num` entry serializes the external
`syscalls::Sysno` value; per the spec it is the raw numeric syscall
id. -/
def SyscallInfo.serialize (i : SyscallInfo) : List (String × Json) :=
  ("type", Json.str i.typ)
  :: ("pid", Json.int i.pid)
  :: ("num", Json.int i.syscall.id)
  :: ("syscall", Json.str i.syscall.name)
  :: ("args", Json.arr (SyscallArgs.serialize i.args))
  :: (RetCode.serialize i.result ++ [("duration", Json.rat i.duration.as_secs_f64)])

/-- Value of a lowercase hexadecimal digit character code, `none` for
anything else.  Used only to state that the escaping is lossless. -/
def hexValN (c : Nat) : Option Nat :=
  if 48 ≤ c ∧ c ≤ 57 then some (c - 48)
  else if 97 ≤ c ∧ c ≤ 102 then some (c - 87)
  else none

/-- Decoder for the per-byte escape code: left inverse of
`List.bind escapeByteCode` on byte lists.  Its existence shows the
escaped form determines the entire original buffer. -/
def unescapeCodes : List Nat → Option (List Nat)
  | [] => some []
  | c :: cs =>
    if c = 92 then
      match cs with
      | [] => none
      | c2 :: cs2 =>
        if c2 = 120 then
          match cs2 with
          | d1 :: d2 :: cs3 =>
            match hexValN d1, hexValN d2 with
            | some h1, some h2 =>
                (unescapeCodes cs3).map (fun l => (16 * h1 + h2) :: l)
            | _, _ => none
          | _ => none
        else if c2 = 34 then (unescapeCodes cs2).map (fun l => 34 :: l)
        else if c2 = 92 then (unescapeCodes cs2).map (fun l => 92 :: l)
        else none
    else if 32 ≤ c ∧ c ≤ 126 then (unescapeCodes cs).map (fun l => c :: l)
    else none

/-! ### Helper lemmas -/

theorem asI32_eq_self (x : Int) (h1 : -(2 ^ 31) ≤ x) (h2 : x < 2 ^ 31) :
    asI32 x = x := by
  unfold asI32
  split_ifs with h <;> omega

theorem unescapeCodes_escapeByteCode (b : Nat) (hb : b < 256) (rest : List Nat) :
    unescapeCodes (escapeByteCode b ++ rest)
      = (unescapeCodes rest).map (fun l => b :: l) := by
  have hhex : ∀ m, m < 16 → hexValN (hexCodeLower m) = some m := by decide
  unfold escapeByteCode
  split_ifs with h1 h2 h3
  · subst h1
    rw [unescapeCodes.eq_def]
    simp
  · subst h2
    rw [unescapeCodes.eq_def]
    simp
  · rw [unescapeCodes.eq_def]
    simp [h1, h2, h3.1, h3.2]
  · have e1 : hexValN (hexCodeLower (b / 16 % 16)) = some (b / 16 % 16) :=
      hhex _ (Nat.mod_lt _ (by norm_num))
    have e2 : hexValN (hexCodeLower (b % 16)) = some (b % 16) :=
      hhex _ (Nat.mod_lt _ (by norm_num))
    have hb' : 16 * (b / 16 % 16) + b % 16 = b := by omega
    rw [unescapeCodes.eq_def]
    simp [e1, e2, hb']

theorem unescape_escape_roundtrip (v : List Nat) (hb : ∀ b ∈ v, b < 256) :
    unescapeCodes (v.flatMap escapeByteCode) = some v := by
  induction v with
  | nil => rfl
  | cons b t ih =>
    have hb' : b < 256 := hb b (by simp)
    have ht : ∀ x ∈ t, x < 256 := fun x hx => hb x (by simp [hx])
    rw [List.flatMap_cons, unescapeCodes_escapeByteCode b hb', ih ht]
    rfl

theorem hexDigit_toUpper : ∀ m, m < 16 →
    Char.toUpper (hexDigitLower m) = hexDigitUpper m := by decide

theorem hexDigits_eq (dig : Nat → Char) (n : Nat) :
    hexDigits dig n
      = if n = 0 then [] else hexDigits dig (n / 16) ++ [dig (n % 16)] := by
  conv_lhs => rw [hexDigits]
  split_ifs <;> rfl

theorem hexDigits_map_toUpper (n : Nat) :
    hexDigits hexDigitUpper n = (hexDigits hexDigitLower n).map Char.toUpper := by
  induction n using Nat.strong_induction_on with
  | _ n ih =>
    by_cases h : n = 0
    · simp [hexDigits, h]
    · rw [hexDigits_eq hexDigitUpper n, hexDigits_eq hexDigitLower n,
        if_neg h, if_neg h, List.map_append,
        ih (n / 16) (Nat.div_lt_self (Nat.pos_of_ne_zero h) (by norm_num))]
      simp [hexDigit_toUpper (n % 16) (Nat.mod_lt _ (by norm_num))]

/-! ### Claim C1 -/

/-- C1 (counterexample): at the raw value 2^63 (the minimum signed
pointer-width integer) the absolute signed value exceeds 32768, yet
classification does not return Address: under release-profile wrapping
arithmetic, the wrapping absolute value of the minimum is the minimum
itself, which is negative, so the code returns Err(0) (the minimum
truncated to i32). -/
theorem c1_classification_counterexample :
    32768 < (toSigned64 (2 ^ 63)).natAbs
    ∧ RetCode.from_raw (2 ^ 63) = RetCode.Err 0
    ∧ RetCode.from_raw (2 ^ 63) ≠ RetCode.Address (2 ^ 63) := by
  refine ⟨by decide, by decide, by decide⟩

/-- C1 (amended): for every raw 64-bit value whose signed
interpretation is not the minimum (-2^63), the classification rule
holds exactly as stated: Address carrying the raw value when the
absolute signed value strictly exceeds 32768, otherwise Err carrying
the signed value when negative, otherwise Ok carrying the signed
value. -/
theorem c1_classification_amended (v : Nat) (hv : v < 2 ^ 64)
    (hmin : toSigned64 v ≠ -(2 ^ 63)) :
    (32768 < (toSigned64 v).natAbs → RetCode.from_raw v = RetCode.Address v)
    ∧ ((toSigned64 v).natAbs ≤ 32768 → toSigned64 v < 0 →
        RetCode.from_raw v = RetCode.Err (toSigned64 v))
    ∧ ((toSigned64 v).natAbs ≤ 32768 → 0 ≤ toSigned64 v →
        RetCode.from_raw v = RetCode.Ok (toSigned64 v)) := by
  have hmod : v % 2 ^ 64 = v := Nat.mod_eq_of_lt hv
  have habs : wrappingAbs64 (toSigned64 v) = ((toSigned64 v).natAbs : Int) := by
    rw [wrappingAbs64, if_neg hmin]
  refine ⟨fun h => ?_, fun h1 h2 => ?_, fun h1 h2 => ?_⟩
  · unfold RetCode.from_raw
    rw [habs, if_pos (by exact_mod_cast h), hmod]
  · unfold RetCode.from_raw
    rw [habs, if_neg (by omega), if_pos h2,
      asI32_eq_self _ (by omega) (by omega)]
  · unfold RetCode.from_raw
    rw [habs, if_neg (by omega), if_neg (by omega),
      asI32_eq_self _ (by omega) (by omega)]

/-- C1 (witness): the amended rule evaluated on the three concrete raw
values 0x7ffff7001000 (Address), 2^64 - 2 (Err -2) and 64 (Ok 64). -/
theorem c1_classification_witness :
    RetCode.from_raw 0x7ffff7001000 = RetCode.Address 0x7ffff7001000
    ∧ RetCode.from_raw (2 ^ 64 - 2) = RetCode.Err (-2)
    ∧ RetCode.from_raw 64 = RetCode.Ok 64 := by
  refine ⟨(c1_classification_amended 0x7ffff7001000 (by norm_num)
      (by decide)).1 (by decide), ?_, ?_⟩
  · exact ((c1_classification_amended (2 ^ 64 - 2) (by norm_num)
      (by decide)).2.1 (by decide) (by decide)).trans (by decide)
  · exact ((c1_classification_amended 64 (by norm_num)
      (by decide)).2.2 (by decide) (by decide)).trans (by decide)

/-! ### Claim C2 -/

/-- C2 (counterexample): under checked arithmetic (the debug-profile
default) classification does not terminate normally on the minimum
signed pointer-width integer: `isize::abs` panics on the minimum value,
modelled here as `none`. -/
theorem c2_totality_counterexample :
    RetCode.from_raw_checked (2 ^ 63) = none := by decide

/-- C2 (amended): with overflow checks disabled (the release-profile
default) classification is a total pure function: every raw value maps
to exactly one of the three variants Ok, Err or Address.  With overflow
checks enabled it agrees with the release behaviour at every raw value
except the one reinterpreting to the minimum signed value -2^63, where
it panics instead. -/
theorem c2_totality_amended (v : Nat) :
    ((∃ x, RetCode.from_raw v = RetCode.Ok x)
      ∨ (∃ x, RetCode.from_raw v = RetCode.Err x)
      ∨ (∃ x, RetCode.from_raw v = RetCode.Address x))
    ∧ (RetCode.from_raw_checked v = some (RetCode.from_raw v)
        ↔ toSigned64 v ≠ -(2 ^ 63)) := by
  constructor
  · unfold RetCode.from_raw
    split_ifs with h1 h2
    · exact Or.inr (Or.inr ⟨_, rfl⟩)
    · exact Or.inr (Or.inl ⟨_, rfl⟩)
    · exact Or.inl ⟨_, rfl⟩
  · by_cases hm : toSigned64 v = -(2 ^ 63)
    · simp [RetCode.from_raw_checked, hm]
    · have habs : wrappingAbs64 (toSigned64 v) = ((toSigned64 v).natAbs : Int) := by
        rw [wrappingAbs64, if_neg hm]
      simp only [hm, ne_eq, not_false_iff, iff_true]
      unfold RetCode.from_raw RetCode.from_raw_checked
      rw [if_neg hm, habs]
      split_ifs <;> first | rfl | (exfalso; omega)

/-! ### Claim C3 -/

/-- C3: text rendering of a Bytes argument.  When the buffer is longer
than the set limit, the rendered string is the escape of exactly the
first `w` bytes followed by the literal three dot bytes (which do not
count toward the limit, so the prepared buffer has length `w + 3`);
when the buffer is within the limit, or no limit is set, the whole
buffer is escaped with no dot suffix.  (The Rust code operates on a
fresh copy of the buffer — `Cow::Borrowed(v).into_owned()` — so the
original is never mutated; the model is pure by construction.) -/
theorem c3_bytes_truncation (v : List Nat) (w : Nat) :
    (w < v.length →
      SyscallArg.write (SyscallArg.Bytes v) (some w)
          = jsonEncodeString (escape_to_string (v.take w ++ [46, 46, 46]))
        ∧ (truncate_with_dots (some w) v).length = w + 3)
    ∧ (v.length ≤ w →
      SyscallArg.write (SyscallArg.Bytes v) (some w)
          = jsonEncodeString (escape_to_string v)
        ∧ truncate_with_dots (some w) v = v)
    ∧ SyscallArg.write (SyscallArg.Bytes v) none
        = jsonEncodeString (escape_to_string v) := by
  refine ⟨fun h => ?_, fun h => ?_, ?_⟩
  · have ht : truncate_with_dots (some w) v = v.take w ++ [46, 46, 46] := by
      simp only [truncate_with_dots]
      rw [if_pos h]
    refine ⟨by simp only [SyscallArg.write, ht], ?_⟩
    rw [ht]
    simp [List.length_take]
    omega
  · have ht : truncate_with_dots (some w) v = v := by
      simp only [truncate_with_dots]
      rw [if_neg (by omega)]
    exact ⟨by simp only [SyscallArg.write, ht], ht⟩
  · rfl

/-- C3 (witness): the truncation rule evaluated on the buffer ABC with
limit 2 (truncated, dots appended) and limit 3 (untouched). -/
theorem c3_bytes_truncation_witness :
    SyscallArg.write (SyscallArg.Bytes [65, 66, 67]) (some 2)
        = jsonEncodeString (escape_to_string ([65, 66, 67].take 2 ++ [46, 46, 46]))
    ∧ SyscallArg.write (SyscallArg.Bytes [65, 66, 67]) (some 3)
        = jsonEncodeString (escape_to_string [65, 66, 67]) :=
  ⟨((c3_bytes_truncation [65, 66, 67] 2).1 (by norm_num)).1,
   ((c3_bytes_truncation [65, 66, 67] 3).2.1 (by norm_num)).1⟩

/-! ### Claim C4 -/

/-- C4: for an exit or exit_group record the text line always shows
the literal question mark as its result field, with no duration suffix,
whatever the classified return code and the show_duration flag are (the
right-hand side mentions neither); for every other syscall the
classified return code is rendered instead (followed by the duration
suffix only when requested). -/
theorem c4_exit_renders_question (t : String) (pid : Int) (s : Sysno)
    (args : List SyscallArg) (r : RetCode) (dur : Duration)
    (string_limit : Option Nat) (show_num show_dur : Bool) :
    ((s = Sysno.exit ∨ s = Sysno.exit_group) →
      SyscallInfo.write_syscall ⟨t, pid, s, args, r, dur⟩ string_limit show_num show_dur
        = "[" ++ toString pid ++ "] "
          ++ (if show_num then padStart3 (toString s.id) ++ " " else "")
          ++ s.name ++ "("
          ++ String.intercalate ", " (args.map (fun a => a.write string_limit))
          ++ ") = "
          ++ "?"
          ++ "\n")
    ∧ (¬(s = Sysno.exit ∨ s = Sysno.exit_group) →
      SyscallInfo.write_syscall ⟨t, pid, s, args, r, dur⟩ string_limit show_num show_dur
        = "[" ++ toString pid ++ "] "
          ++ (if show_num then padStart3 (toString s.id) ++ " " else "")
          ++ s.name ++ "("
          ++ String.intercalate ", " (args.map (fun a => a.write string_limit))
          ++ ") = "
          ++ (RetCode.display r
              ++ (if show_dur then " <" ++ toString dur.as_nanos ++ "ns>" else ""))
          ++ "\n") := by
  constructor
  · intro h
    simp only [SyscallInfo.write_syscall]
    rw [if_pos h]
  · intro h
    simp only [SyscallInfo.write_syscall]
    rw [if_neg h]

/-- C4 (witness): both branches evaluated: a concrete exit record
renders with a question mark and no duration even though show_duration
is set, and a concrete read record renders its return code. -/
theorem c4_exit_renders_question_witness :
    SyscallInfo.write_syscall
        ⟨"SYSCALL", 1, Sysno.exit, [SyscallArg.Int 0], RetCode.Ok 0, ⟨0, 5⟩⟩
        none false true
      = "[1] exit(0) = ?\n"
    ∧ SyscallInfo.write_syscall
        ⟨"SYSCALL", 1, ⟨0, "read"⟩, [], RetCode.Err (-2), ⟨0, 5⟩⟩
        none false false
      = "[1] read() = -2\n" := by
  constructor
  · rw [(c4_exit_renders_question "SYSCALL" 1 Sysno.exit [SyscallArg.Int 0]
      (RetCode.Ok 0) ⟨0, 5⟩ none false true).1 (Or.inl rfl)]
    decide
  · rw [(c4_exit_renders_question "SYSCALL" 1 ⟨0, "read"⟩ []
      (RetCode.Err (-2)) ⟨0, 5⟩ none false false).2 (by decide)]
    decide

/-! ### Claim C5 -/

/-- C5: the structured record is a map of exactly seven fields in the
order type, pid, num, syscall, args, then exactly one of success /
error / result (matching the return-code variant, flattened at top
level and holding the classified value), and finally duration as a
(floating-point, here exact-rational) count of seconds. -/
theorem c5_structured_record_shape (t : String) (pid : Int) (s : Sysno)
    (args : List SyscallArg) (r : RetCode) (dur : Duration) :
    (SyscallInfo.serialize ⟨t, pid, s, args, r, dur⟩).length = 7
    ∧ (SyscallInfo.serialize ⟨t, pid, s, args, r, dur⟩).map Prod.fst
        = ["type", "pid", "num", "syscall", "args",
           (match r with
            | RetCode.Ok _ => "success"
            | RetCode.Err _ => "error"
            | RetCode.Address _ => "result"), "duration"]
    ∧ (((SyscallInfo.serialize ⟨t, pid, s, args, r, dur⟩).map Prod.fst).filter
         (fun k => k == "success" || k == "error" || k == "result")).length = 1
    ∧ (SyscallInfo.serialize ⟨t, pid, s, args, r, dur⟩).drop 5
        = [((match r with
             | RetCode.Ok _ => "success"
             | RetCode.Err _ => "error"
             | RetCode.Address _ => "result"),
            (match r with
             | RetCode.Ok x => Json.int x
             | RetCode.Err x => Json.int x
             | RetCode.Address x => Json.int (x : Int))),
           ("duration", Json.rat dur.as_secs_f64)] := by
  cases r <;>
    refine ⟨rfl, rfl, ?_, rfl⟩ <;> rfl

/-! ### Claim C6 -/

/-- C6 (counterexample): the spec example record (pid 1234, read, args
3, 0x7fffdead, 128, return 64, duration 0.000123 s) renders its
duration as a plain nanosecond count `123000ns`, not as the claimed
six-decimal form `123000.000000ns`: the precision in the Rust format
specifier is ignored for integral values. -/
theorem c6_duration_counterexample :
    SyscallInfo.write_syscall
        ⟨"SYSCALL", 1234, ⟨0, "read"⟩,
         [SyscallArg.Int 3, SyscallArg.Addr 0x7fffdead, SyscallArg.Int 128],
         RetCode.Ok 64, ⟨0, 123000⟩⟩ none false true
      = "[1234] read(3, 0x7FFFDEAD, 128) = 64 <123000ns>\n"
    ∧ SyscallInfo.write_syscall
        ⟨"SYSCALL", 1234, ⟨0, "read"⟩,
         [SyscallArg.Int 3, SyscallArg.Addr 0x7fffdead, SyscallArg.Int 128],
         RetCode.Ok 64, ⟨0, 123000⟩⟩ none false true
      ≠ "[1234] read(3, 0x7FFFDEAD, 128) = 64 <123000.000000ns>\n" := by
  have hhex : SyscallArg.write (SyscallArg.Addr 0x7fffdead) none = "0x7FFFDEAD" := by
    simp [SyscallArg.write, hexStringUpper, hexDigits_eq, hexDigitUpper]
  constructor <;>
  · simp only [SyscallInfo.write_syscall]
    rw [if_neg (by decide)]
    simp only [List.map_cons, List.map_nil, hhex]
    decide

/-- C6 (amended): when show_duration is set and the syscall is not a
termination call, the rendered line appends the elapsed duration as the
nanosecond count printed as a plain decimal integer (Rust ignores the
`.6` precision for integral values) inside angle brackets with an `ns`
suffix; a duration of 0.000123 seconds renders as ` <123000ns>`. -/
theorem c6_duration_plain_nanos (t : String) (pid : Int) (s : Sysno)
    (args : List SyscallArg) (r : RetCode) (dur : Duration)
    (string_limit : Option Nat) (show_num : Bool)
    (h : ¬(s = Sysno.exit ∨ s = Sysno.exit_group)) :
    SyscallInfo.write_syscall ⟨t, pid, s, args, r, dur⟩ string_limit show_num true
      = "[" ++ toString pid ++ "] "
        ++ (if show_num then padStart3 (toString s.id) ++ " " else "")
        ++ s.name ++ "("
        ++ String.intercalate ", " (args.map (fun a => a.write string_limit))
        ++ ") = "
        ++ (RetCode.display r ++ (" <" ++ toString dur.as_nanos ++ "ns>"))
        ++ "\n" := by
  simp only [SyscallInfo.write_syscall]
  rw [if_neg h]
  rfl

/-- C6 (witness): the amended statement applied to the spec example
record, evaluating to the concrete line with the plain nanosecond
count. -/
theorem c6_duration_plain_nanos_witness :
    SyscallInfo.write_syscall
        ⟨"SYSCALL", 1234, ⟨0, "read"⟩,
         [SyscallArg.Int 3, SyscallArg.Addr 0x7fffdead, SyscallArg.Int 128],
         RetCode.Ok 64, ⟨0, 123000⟩⟩ none false true
      = "[1234] read(3, 0x7FFFDEAD, 128) = 64" ++ " <123000ns>" ++ "\n" := by
  rw [c6_duration_plain_nanos "SYSCALL" 1234 ⟨0, "read"⟩
    [SyscallArg.Int 3, SyscallArg.Addr 0x7fffdead, SyscallArg.Int 128]
    (RetCode.Ok 64) ⟨0, 123000⟩ none false (by decide)]
  have hhex : SyscallArg.write (SyscallArg.Addr 0x7fffdead) none = "0x7FFFDEAD" := by
    simp [SyscallArg.write, hexStringUpper, hexDigits_eq, hexDigitUpper]
  simp only [List.map_cons, List.map_nil, hhex]
  decide

/-! ### Claim C7 -/

/-- C7 (counterexample): the text path prints an Address return code
with a lowercase `0x` marker followed by uppercase digits — not the
claimed uppercase `0X` prefix — and the structured path serializes an
Address return value as a plain number, not as a lowercase-hex
string. -/
theorem c7_hex_case_counterexample :
    RetCode.display (RetCode.Address 0x7ffff7001000) = "0x7FFFF7001000"
    ∧ RetCode.display (RetCode.Address 0x7ffff7001000) ≠ "0X7FFFF7001000"
    ∧ RetCode.serialize (RetCode.Address 0x7ffff7001000)
        = [("result", Json.int 140737337364480)] := by
  have hhex : RetCode.display (RetCode.Address 0x7ffff7001000) = "0x7FFFF7001000" := by
    simp [RetCode.display, hexStringUpper, hexDigits_eq, hexDigitUpper]
  exact ⟨hhex, by rw [hhex]; decide, rfl⟩

/-- C7 (amended): the text path renders Address return codes and
Address arguments with the `0x` marker (lowercase) and uppercase
hexadecimal digits; the structured path renders an Address argument as
a string with the `0x` marker and lowercase digits, and an Address
return value as a plain number with no hex prefix at all.  The digit
sequences of the two text/structured hex forms agree up to letter
case. -/
theorem c7_hex_rendering_amended (v : Nat) (string_limit : Option Nat) :
    RetCode.display (RetCode.Address v) = hexStringUpper v
    ∧ SyscallArg.write (SyscallArg.Addr v) string_limit = hexStringUpper v
    ∧ SyscallArg.serialize (SyscallArg.Addr v) = Json.str (hexStringLower v)
    ∧ RetCode.serialize (RetCode.Address v) = [("result", Json.int (v : Int))]
    ∧ hexDigits hexDigitUpper v = (hexDigits hexDigitLower v).map Char.toUpper :=
  ⟨rfl, rfl, rfl, rfl, hexDigits_map_toUpper v⟩

/-! ### Claim C8 -/

/-- C8: with no truncation limit, the string the text path writes for a
byte-buffer argument is exactly the JSON encoding of the string value
the structured path produces for the same argument: both apply the same
escaping routine to the same bytes. -/
theorem c8_text_structured_escape_consistency (v : List Nat) :
    SyscallArg.write (SyscallArg.Bytes v) none
      = jsonEncodeString (escape_to_string v)
    ∧ SyscallArg.serialize (SyscallArg.Bytes v) = Json.str (escape_to_string v) :=
  ⟨rfl, rfl⟩

/-! ### Claim C9 -/

/-- C9: the structured path never truncates a byte buffer: the
serialized value of a Bytes argument is the escaped form of the entire
buffer (its serializer takes no limit parameter), and the escaping is
lossless — the whole original buffer is recoverable from the escaped
code sequence, so nothing is dropped and no dot suffix is added. -/
theorem c9_structured_never_truncates (v : List Nat) (hb : ∀ b ∈ v, b < 256) :
    SyscallArg.serialize (SyscallArg.Bytes v) = Json.str (escape_to_string v)
    ∧ escape_to_string v = String.mk ((v.flatMap escapeByteCode).map Char.ofNat)
    ∧ unescapeCodes (v.flatMap escapeByteCode) = some v :=
  ⟨rfl, rfl, unescape_escape_roundtrip v hb⟩

/-- C9 (witness): a concrete buffer containing a control byte, a
printable byte and a high byte serializes to the escape of the whole
buffer and decodes back to it. -/
theorem c9_structured_never_truncates_witness :
    SyscallArg.serialize (SyscallArg.Bytes [0, 65, 255])
        = Json.str (escape_to_string [0, 65, 255])
    ∧ escape_to_string [0, 65, 255]
        = String.mk (([0, 65, 255].flatMap escapeByteCode).map Char.ofNat)
    ∧ unescapeCodes ([0, 65, 255].flatMap escapeByteCode) = some [0, 65, 255] :=
  c9_structured_never_truncates [0, 65, 255] (by decide)

/-! ### Claim C10 -/

/-- C10: structured serialization does not special-case the
process-termination syscalls: a record whose syscall is exit or
exit_group still serializes with its flattened return-code entry
followed by the duration entry, and with the full seven fields, exactly
like any other record. -/
theorem c10_exit_structured_unchanged (t : String) (pid : Int) (s : Sysno)
    (args : List SyscallArg) (r : RetCode) (dur : Duration)
    (h : s = Sysno.exit ∨ s = Sysno.exit_group) :
    (SyscallInfo.serialize ⟨t, pid, s, args, r, dur⟩).drop 5
      = RetCode.serialize r ++ [("duration", Json.rat dur.as_secs_f64)]
    ∧ (SyscallInfo.serialize ⟨t, pid, s, args, r, dur⟩).length = 7 := by
  exact ⟨rfl, by cases r <;> rfl⟩

/-- C10 (witness): a concrete exit record keeps its success and
duration entries in the structured output. -/
theorem c10_exit_structured_unchanged_witness :
    (SyscallInfo.serialize
        ⟨"SYSCALL", 1, Sysno.exit, [], RetCode.Ok 0, ⟨1, 0⟩⟩).drop 5
      = RetCode.serialize (RetCode.Ok 0)
        ++ [("duration", Json.rat (Duration.as_secs_f64 ⟨1, 0⟩))]
    ∧ (SyscallInfo.serialize
        ⟨"SYSCALL", 1, Sysno.exit, [], RetCode.Ok 0, ⟨1, 0⟩⟩).length = 7 :=
  c10_exit_structured_unchanged "SYSCALL" 1 Sysno.exit [] (RetCode.Ok 0) ⟨1, 0⟩
    (Or.inl rfl)

end Lurk
